import Mathlib

/-!
Shallow embedding of the HAOreelsGEN media pipeline
(src/src/managers/video_manager.py, voice_manager.py, image_manager.py,
src/src/core/dialogue_generator.py) and proofs about it.

External network services (ElevenLabs speech synthesis, DALL-E image
generation, the OpenAI chat completion) are modelled as oracles: a list or
function giving the outcome of each call, either `Except.ok` with the value
the service returned or `Except.error` with the raised exception's message.
Durations are rationals (Python floats stand for exact reals here); file
systems are functions from path to the image dimensions stored there.
-/

namespace HAOreelsGEN

/-- One element of `VideoManager.timestamps` as appended in
`create_audio_with_timestamps` (video_manager.py lines 297-302):
a dict with keys "text", "image", "start", "end".  `image` is the string
stored in the `dialogue_images` dict for this index, with `""` as the
`.get` default.  `end` is a Lean keyword, hence the field name `endTime`. -/
structure TimelineEntry where
  text : String
  image : String
  start : ℚ
  endTime : ℚ
  deriving Repr, DecidableEq

/-- The loop body of `VideoManager.create_audio_with_timestamps`
(video_manager.py lines 283-304).  Each input line is paired with the
outcome of its `voice_manager.generate_audio` call: `Except.ok d` means the
call returned an audio file whose measured `AudioFileClip` duration is `d`;
`Except.error e` means the call raised after exhausting its retries.
`images i` is `dialogue_images.get(i, "")`.  The returned list is the
content of `self.timestamps` when the loop stops (entries appended before a
raising call remain), and the `Except` records whether the loop finished or
an exception propagated. -/
def create_audio_loop (images : ℕ → String) :
    List (String × Except String ℚ) → ℕ → ℚ →
    List TimelineEntry × Except String Unit
  | [], _, _ => ([], Except.ok ())
  | (_, Except.error e) :: _, _, _ => ([], Except.error e)
  | (line, Except.ok d) :: rest, i, current_time =>
    let entry : TimelineEntry :=
      { text := line, image := images i,
        start := current_time, endTime := current_time + d }
    let r := create_audio_loop images rest (i + 1) (current_time + d)
    (entry :: r.1, r.2)

/-- The attributes `create_audio_with_timestamps` creates on the
`VideoManager` instance and `process_video` later reads.  `none` models a
Python attribute that has never been assigned (reading it raises
`AttributeError`). -/
structure VMState where
  dialogue_lines : Option (List String)
  timestamps : Option (List TimelineEntry)
  deriving Repr, DecidableEq

/-- A freshly constructed `VideoManager` (video_manager.py lines 16-32):
`__init__` sets only `output_dir`, `background_video` and `video_size`;
`dialogue_lines` and `timestamps` do not exist yet. -/
def VideoManager_init : VMState :=
  { dialogue_lines := none, timestamps := none }

/-- `VideoManager.create_audio_with_timestamps` (video_manager.py lines
268-315) at the state level: it assigns `self.dialogue_lines`, runs the
timestamp loop from `current_time = 0`, and the resulting (possibly
partial) list is what `self.timestamps` holds afterwards; the `Except`
side is whether the call returned normally or let a synthesis exception
propagate. -/
def create_audio_with_timestamps (st : VMState)
    (lines : List (String × Except String ℚ)) (images : ℕ → String) :
    VMState × Except String Unit :=
  let r := create_audio_loop images lines 0 0
  ({ st with dialogue_lines := some (lines.map Prod.fst),
             timestamps := some r.1 }, r.2)

/-- `Chained t entries`: each entry starts where the previous one ended,
the first at time `t`.  This is the shape `create_audio_loop` produces. -/
def Chained : ℚ → List TimelineEntry → Prop
  | _, [] => True
  | t, e :: rest => e.start = t ∧ Chained e.endTime rest

theorem create_audio_loop_ok_of_all_ok (images : ℕ → String) :
    ∀ (lines : List (String × Except String ℚ)) (i : ℕ) (t : ℚ),
      (∀ p ∈ lines, ∃ d : ℚ, p.2 = Except.ok d) →
      (create_audio_loop images lines i t).2 = Except.ok () := by
  intro lines
  induction lines with
  | nil => intro i t _; rfl
  | cons p rest ih =>
    intro i t hall
    obtain ⟨d, hd⟩ := hall p (List.mem_cons_self p rest)
    obtain ⟨line, o⟩ := p
    simp only at hd
    subst hd
    simpa [create_audio_loop] using
      ih (i + 1) (t + d) (fun q hq => hall q (List.mem_cons_of_mem _ hq))

theorem create_audio_loop_chained (images : ℕ → String) :
    ∀ (lines : List (String × Except String ℚ)) (i : ℕ) (t : ℚ),
      Chained t (create_audio_loop images lines i t).1 := by
  intro lines
  induction lines with
  | nil => intro i t; trivial
  | cons p rest ih =>
    intro i t
    obtain ⟨line, o⟩ := p
    cases o with
    | error e => trivial
    | ok d =>
      refine ⟨rfl, ?_⟩
      exact ih (i + 1) (t + d)

theorem create_audio_loop_pos_duration (images : ℕ → String) :
    ∀ (lines : List (String × Except String ℚ)) (i : ℕ) (t : ℚ),
      (∀ p ∈ lines, ∀ d : ℚ, p.2 = Except.ok d → 0 < d) →
      ∀ e ∈ (create_audio_loop images lines i t).1, e.start < e.endTime := by
  intro lines
  induction lines with
  | nil => intro i t _ e he; simp [create_audio_loop] at he
  | cons p rest ih =>
    intro i t hpos e he
    obtain ⟨line, o⟩ := p
    cases o with
    | error msg => simp [create_audio_loop] at he
    | ok d =>
      simp only [create_audio_loop, List.mem_cons] at he
      rcases he with rfl | he
      · have hd : (0 : ℚ) < d :=
          hpos (line, Except.ok d) (List.mem_cons_self _ _) d rfl
        simpa using hd
      · exact ih (i + 1) (t + d)
          (fun q hq => hpos q (List.mem_cons_of_mem _ hq)) e he

/-- From the chained shape, extract the indexed contiguity facts. -/
theorem Chained.start_eq :
    ∀ (ts : List TimelineEntry) (t : ℚ), Chained t ts →
      ∀ h : 0 < ts.length, (ts.get ⟨0, h⟩).start = t := by
  intro ts t hc h
  cases ts with
  | nil => simp at h
  | cons e rest => exact hc.1

theorem Chained.consecutive :
    ∀ (ts : List TimelineEntry) (t : ℚ), Chained t ts →
      ∀ (i : ℕ) (h : i + 1 < ts.length),
        (ts.get ⟨i, Nat.lt_of_succ_lt h⟩).endTime = (ts.get ⟨i + 1, h⟩).start := by
  intro ts
  induction ts with
  | nil => intro t _ i h; simp at h
  | cons e rest ih =>
    intro t hc i h
    cases i with
    | zero =>
      cases rest with
      | nil => simp at h
      | cons e2 rest2 => exact (hc.2.1).symm
    | succ j =>
      exact ih e.endTime hc.2 j (Nat.lt_of_succ_lt_succ h)

theorem create_audio_loop_map_text (images : ℕ → String) :
    ∀ (lines : List (String × Except String ℚ)) (i : ℕ) (t : ℚ),
      (∀ p ∈ lines, ∃ d : ℚ, p.2 = Except.ok d) →
      (create_audio_loop images lines i t).1.map TimelineEntry.text =
        lines.map Prod.fst := by
  intro lines
  induction lines with
  | nil => intro i t _; rfl
  | cons p rest ih =>
    intro i t hall
    obtain ⟨d, hd⟩ := hall p (List.mem_cons_self p rest)
    obtain ⟨line, o⟩ := p
    simp only at hd
    subst hd
    simpa [create_audio_loop] using
      ih (i + 1) (t + d) (fun q hq => hall q (List.mem_cons_of_mem _ hq))

/-- C1: if every per-line synthesis succeeds with a positive duration, the
timeline recorded by `create_audio_with_timestamps` starts at 0, every
entry ends strictly after it starts, and each entry's end equals the next
entry's start. -/
theorem timeline_contiguity_invariant (st : VMState)
    (lines : List (String × Except String ℚ)) (images : ℕ → String)
    (hok : ∀ p ∈ lines, ∃ d : ℚ, p.2 = Except.ok d ∧ 0 < d) :
    ∃ ts : List TimelineEntry,
      (create_audio_with_timestamps st lines images).1.timestamps = some ts ∧
      (∀ h : 0 < ts.length, (ts.get ⟨0, h⟩).start = 0) ∧
      (∀ e ∈ ts, e.start < e.endTime) ∧
      (∀ (i : ℕ) (h : i + 1 < ts.length),
        (ts.get ⟨i, Nat.lt_of_succ_lt h⟩).endTime = (ts.get ⟨i + 1, h⟩).start) := by
  refine ⟨(create_audio_loop images lines 0 0).1, rfl, ?_, ?_, ?_⟩
  · exact Chained.start_eq _ 0 (create_audio_loop_chained images lines 0 0)
  · refine create_audio_loop_pos_duration images lines 0 0 ?_
    intro p hp d hd
    obtain ⟨d', hd', hpos⟩ := hok p hp
    rw [hd] at hd'
    cases hd'
    exact hpos
  · exact Chained.consecutive _ 0 (create_audio_loop_chained images lines 0 0)

theorem timeline_contiguity_invariant_witness :
    ∃ ts : List TimelineEntry,
      (create_audio_with_timestamps VideoManager_init
        [("a", Except.ok 2), ("b", Except.ok (3/2)), ("c", Except.ok 3)]
        (fun _ => "")).1.timestamps = some ts ∧
      (∀ h : 0 < ts.length, (ts.get ⟨0, h⟩).start = 0) ∧
      (∀ e ∈ ts, e.start < e.endTime) ∧
      (∀ (i : ℕ) (h : i + 1 < ts.length),
        (ts.get ⟨i, Nat.lt_of_succ_lt h⟩).endTime = (ts.get ⟨i + 1, h⟩).start) := by
  refine timeline_contiguity_invariant _ _ _ ?_
  intro p hp
  fin_cases hp
  · exact ⟨2, rfl, by norm_num⟩
  · exact ⟨3/2, rfl, by norm_num⟩
  · exact ⟨3, rfl, by norm_num⟩

/-- C4: when every synthesis succeeds, `create_audio_with_timestamps`
returns normally and records exactly one timeline entry per input line, in
input order, each entry's text being the corresponding line. -/
theorem timeline_one_entry_per_line (st : VMState)
    (lines : List (String × Except String ℚ)) (images : ℕ → String)
    (_hne : lines ≠ [])
    (hok : ∀ p ∈ lines, ∃ d : ℚ, p.2 = Except.ok d) :
    (create_audio_with_timestamps st lines images).2 = Except.ok () ∧
    ∃ ts : List TimelineEntry,
      (create_audio_with_timestamps st lines images).1.timestamps = some ts ∧
      ts.map TimelineEntry.text = lines.map Prod.fst := by
  refine ⟨create_audio_loop_ok_of_all_ok images lines 0 0 hok,
    (create_audio_loop images lines 0 0).1, rfl,
    create_audio_loop_map_text images lines 0 0 hok⟩

theorem timeline_one_entry_per_line_witness :
    (create_audio_with_timestamps VideoManager_init
      [("hi", Except.ok 1), ("yo", Except.ok 2)] (fun _ => "")).2 =
        Except.ok () ∧
    ∃ ts : List TimelineEntry,
      (create_audio_with_timestamps VideoManager_init
        [("hi", Except.ok 1), ("yo", Except.ok 2)]
        (fun _ => "")).1.timestamps = some ts ∧
      ts.map TimelineEntry.text = ["hi", "yo"] := by
  exact timeline_one_entry_per_line VideoManager_init
    [("hi", Except.ok 1), ("yo", Except.ok 2)] (fun _ => "")
    (by simp) (by intro p hp; fin_cases hp <;> exact ⟨_, rfl⟩)

/-- C2 as stated is false: when the second line's synthesis fails, the
call raises, but the builder's state keeps the entry already appended for
the first line — `self.timestamps` is a one-entry partial timeline, not
empty. -/
theorem partial_timeline_counterexample :
    (create_audio_with_timestamps VideoManager_init
      [("a", Except.ok 1), ("b", Except.error "synthesis failed")]
      (fun _ => "")).2 = Except.error "synthesis failed" ∧
    (create_audio_with_timestamps VideoManager_init
      [("a", Except.ok 1), ("b", Except.error "synthesis failed")]
      (fun _ => "")).1.timestamps =
      some [{ text := "a", image := "", start := 0, endTime := 1 }] := by
  refine ⟨rfl, ?_⟩
  norm_num [create_audio_with_timestamps, create_audio_loop, VideoManager_init]

theorem create_audio_loop_stops_at_failure (images : ℕ → String) :
    ∀ (lines : List (String × Except String ℚ)) (k : ℕ) (i : ℕ) (t : ℚ)
      (hk : k < lines.length) (e : String),
      (∀ (j : ℕ) (hj : j < k),
        ∃ d : ℚ, (lines.get ⟨j, lt_trans hj hk⟩).2 = Except.ok d) →
      (lines.get ⟨k, hk⟩).2 = Except.error e →
      (create_audio_loop images lines i t).2 = Except.error e ∧
      (create_audio_loop images lines i t).1.length = k := by
  intro lines
  induction lines with
  | nil => intro k i t hk; simp at hk
  | cons p rest ih =>
    intro k i t hk e hbefore hfail
    cases k with
    | zero =>
      obtain ⟨line, o⟩ := p
      simp only [List.get] at hfail
      subst hfail
      exact ⟨rfl, rfl⟩
    | succ m =>
      obtain ⟨d, hd⟩ := hbefore 0 (Nat.succ_pos m)
      obtain ⟨line, o⟩ := p
      simp only [List.get] at hd
      subst hd
      have hm : m < rest.length := Nat.lt_of_succ_lt_succ hk
      have hrest := ih m (i + 1) (t + d) hm e
        (fun j hj => hbefore (j + 1) (Nat.succ_lt_succ hj))
        hfail
      simp only [create_audio_loop]
      exact ⟨hrest.1, by simp [hrest.2]⟩

/-- C2 amended: if synthesis first fails at line `k` (all earlier lines
succeed), the build raises that synthesis error and returns no timeline,
but the builder's state retains a partial timeline of exactly `k` entries,
one per line already processed. -/
theorem build_fails_keeps_partial_state (st : VMState)
    (lines : List (String × Except String ℚ)) (images : ℕ → String)
    (k : ℕ) (hk : k < lines.length) (e : String)
    (hbefore : ∀ (j : ℕ) (hj : j < k),
      ∃ d : ℚ, (lines.get ⟨j, lt_trans hj hk⟩).2 = Except.ok d)
    (hfail : (lines.get ⟨k, hk⟩).2 = Except.error e) :
    (create_audio_with_timestamps st lines images).2 = Except.error e ∧
    ∃ ts : List TimelineEntry,
      (create_audio_with_timestamps st lines images).1.timestamps = some ts ∧
      ts.length = k := by
  have h := create_audio_loop_stops_at_failure images lines k 0 0 hk e
    hbefore hfail
  exact ⟨h.1, (create_audio_loop images lines 0 0).1, rfl, h.2⟩

theorem build_fails_keeps_partial_state_witness :
    (create_audio_with_timestamps VideoManager_init
      [("a", Except.ok 1), ("b", Except.error "boom")]
      (fun _ => "")).2 = Except.error "boom" ∧
    ∃ ts : List TimelineEntry,
      (create_audio_with_timestamps VideoManager_init
        [("a", Except.ok 1), ("b", Except.error "boom")]
        (fun _ => "")).1.timestamps = some ts ∧
      ts.length = 1 := by
  refine build_fails_keeps_partial_state VideoManager_init
    [("a", Except.ok 1), ("b", Except.error "boom")] (fun _ => "")
    1 (by norm_num) "boom" ?_ rfl
  intro j hj
  interval_cases j
  exact ⟨1, rfl⟩

/-- The retry loop of `ElevenLabsVoiceManager.generate_audio`
(voice_manager.py lines 64-108).  `oracle attempt` is what the body of the
`try` block produces on that attempt number: `Except.ok filename` when the
HTTP request, audio write and metadata write all succeed, `Except.error e`
when any of them raises.  Returns the call's result, the number of
attempts actually made, and the list of `time.sleep` delays performed (in
seconds).  Recursion is on the number of loop iterations left; the Python
`attempt` index is `max_retries - remaining`. -/
def generate_audio_go (oracle : ℕ → Except String String) (max_retries : ℕ) :
    ℕ → Except String String × ℕ × List ℕ
  | 0 => (Except.error "Не удалось сгенерировать аудио", 0, [])
  | remaining + 1 =>
    match oracle (max_retries - (remaining + 1)) with
    | Except.ok filename => (Except.ok filename, 1, [])
    | Except.error e =>
      if remaining = 0 then
        (Except.error ("Не удалось сгенерировать аудио после " ++
          toString max_retries ++ " попыток: " ++ e), 1, [])
      else
        let r := generate_audio_go oracle max_retries remaining
        (r.1, r.2.1 + 1, 2 :: r.2.2)

/-- `generate_audio` with its default `max_retries = 3`. -/
def generate_audio (oracle : ℕ → Except String String) :
    Except String String × ℕ × List ℕ :=
  generate_audio_go oracle 3 3

theorem generate_audio_first_ok (oracle : ℕ → Except String String)
    (f : String) (h0 : oracle 0 = Except.ok f) :
    generate_audio oracle = (Except.ok f, 1, []) := by
  simp [generate_audio, generate_audio_go, h0]

theorem generate_audio_second_ok (oracle : ℕ → Except String String)
    (e0 f : String) (h0 : oracle 0 = Except.error e0)
    (h1 : oracle 1 = Except.ok f) :
    generate_audio oracle = (Except.ok f, 2, [2]) := by
  simp [generate_audio, generate_audio_go, h0, h1]

theorem generate_audio_third_ok (oracle : ℕ → Except String String)
    (e0 e1 f : String) (h0 : oracle 0 = Except.error e0)
    (h1 : oracle 1 = Except.error e1) (h2 : oracle 2 = Except.ok f) :
    generate_audio oracle = (Except.ok f, 3, [2, 2]) := by
  simp [generate_audio, generate_audio_go, h0, h1, h2]

theorem generate_audio_all_fail (oracle : ℕ → Except String String)
    (e0 e1 e2 : String) (h0 : oracle 0 = Except.error e0)
    (h1 : oracle 1 = Except.error e1) (h2 : oracle 2 = Except.error e2) :
    generate_audio oracle =
      (Except.error
        ("Не удалось сгенерировать аудио после 3 попыток: " ++ e2),
       3, [2, 2]) := by
  simp only [generate_audio, generate_audio_go, h0, h1, h2]
  rfl

theorem generate_audio_shape (oracle : ℕ → Except String String) :
    (∃ f : String, generate_audio oracle = (Except.ok f, 1, [])) ∨
    (∃ f : String, generate_audio oracle = (Except.ok f, 2, [2])) ∨
    (∃ f : String, generate_audio oracle = (Except.ok f, 3, [2, 2])) ∨
    (∃ msg : String, generate_audio oracle = (Except.error msg, 3, [2, 2])) := by
  cases h0 : oracle 0 with
  | ok f =>
    exact Or.inl ⟨f, generate_audio_first_ok oracle f h0⟩
  | error e0 =>
    cases h1 : oracle 1 with
    | ok f =>
      exact Or.inr (Or.inl ⟨f, generate_audio_second_ok oracle e0 f h0 h1⟩)
    | error e1 =>
      cases h2 : oracle 2 with
      | ok f =>
        exact Or.inr (Or.inr (Or.inl
          ⟨f, generate_audio_third_ok oracle e0 e1 f h0 h1 h2⟩))
      | error e2 =>
        exact Or.inr (Or.inr (Or.inr
          ⟨_, generate_audio_all_fail oracle e0 e1 e2 h0 h1 h2⟩))

/-- C5: the synthesis adapter makes at most 3 attempts, sleeps 2 seconds
between consecutive attempts (one sleep fewer than attempts made), returns
the result of the first successful attempt, and when all 3 attempts fail
raises a terminal error carrying the last underlying cause. -/
theorem generate_audio_retry_policy (oracle : ℕ → Except String String) :
    (generate_audio oracle).2.1 ≤ 3 ∧
    (generate_audio oracle).2.2 =
      List.replicate ((generate_audio oracle).2.1 - 1) 2 ∧
    (∀ (i : ℕ) (f : String), i < 3 → oracle i = Except.ok f →
      (∀ j < i, ∃ e : String, oracle j = Except.error e) →
      (generate_audio oracle).1 = Except.ok f ∧
      (generate_audio oracle).2.1 = i + 1) ∧
    (∀ e0 e1 e2 : String, oracle 0 = Except.error e0 →
      oracle 1 = Except.error e1 → oracle 2 = Except.error e2 →
      (generate_audio oracle).1 =
        Except.error
          ("Не удалось сгенерировать аудио после 3 попыток: " ++ e2) ∧
      (generate_audio oracle).2.1 = 3 ∧
      (generate_audio oracle).2.2 = [2, 2]) := by
  refine ⟨?_, ?_, ?_, ?_⟩
  · rcases generate_audio_shape oracle with ⟨f, h⟩ | ⟨f, h⟩ | ⟨f, h⟩ | ⟨m, h⟩ <;>
      simp only [h] <;> norm_num
  · rcases generate_audio_shape oracle with ⟨f, h⟩ | ⟨f, h⟩ | ⟨f, h⟩ | ⟨m, h⟩ <;>
      simp only [h] <;> rfl
  · intro i f hi hok hbefore
    interval_cases i
    · rw [generate_audio_first_ok oracle f hok]
      exact ⟨rfl, rfl⟩
    · obtain ⟨e0, h0⟩ := hbefore 0 (by norm_num)
      rw [generate_audio_second_ok oracle e0 f h0 hok]
      exact ⟨rfl, rfl⟩
    · obtain ⟨e0, h0⟩ := hbefore 0 (by norm_num)
      obtain ⟨e1, h1⟩ := hbefore 1 (by norm_num)
      rw [generate_audio_third_ok oracle e0 e1 f h0 h1 hok]
      exact ⟨rfl, rfl⟩
  · intro e0 e1 e2 h0 h1 h2
    rw [generate_audio_all_fail oracle e0 e1 e2 h0 h1 h2]
    exact ⟨rfl, rfl, rfl⟩

theorem generate_audio_retry_policy_witness :
    (generate_audio (fun i =>
      if i = 0 then Except.error "timeout" else Except.ok "rick.mp3")).1 =
      Except.ok "rick.mp3" ∧
    (generate_audio (fun i =>
      if i = 0 then Except.error "timeout" else Except.ok "rick.mp3")).2.1 = 2 := by
  exact (generate_audio_retry_policy
    (fun i => if i = 0 then Except.error "timeout" else Except.ok "rick.mp3")).2.2.1
    1 "rick.mp3" (by norm_num) (by norm_num)
    (by intro j hj; interval_cases j; exact ⟨"timeout", rfl⟩)

/-- An image overlay as configured by the loop body of
`VideoManager.create_image_clips` (video_manager.py lines 166-194):
the resized dimensions, the `set_position` coordinates and the
`set_start`/`set_end` window. -/
structure ImageClip where
  target_width : ℕ
  target_height : ℕ
  x_pos : ℕ
  y_pos : ℕ
  start : ℚ
  endTime : ℚ
  deriving Repr, DecidableEq

/-- One iteration of the `create_image_clips` loop.  `fs path` is
`some (w, h)` when a decodable image of pixel size `w × h` exists at
`path`; `mp.ImageClip(path)` raises when there is no such file.  Python's
`int()` on these non-negative ratios is a floor, i.e. natural division. -/
def make_image_clip (fs : String → Option (ℕ × ℕ)) (video_size : ℕ × ℕ)
    (ts : TimelineEntry) : Except String ImageClip :=
  match fs ts.image with
  | none => Except.error ("ImageClip: no such image file: " ++ ts.image)
  | some (img_width, img_height) =>
    let target_width := video_size.1
    let target_height := img_height * target_width / img_width
    let p : ℕ × ℕ :=
      if target_height > video_size.2 then
        (img_width * video_size.2 / img_height, video_size.2)
      else (target_width, target_height)
    Except.ok
      { target_width := p.1, target_height := p.2,
        x_pos := (video_size.1 - p.1) / 2,
        y_pos := (video_size.2 - p.2) / 2,
        start := ts.start, endTime := ts.endTime }

/-- `VideoManager.create_image_clips`: builds one overlay per timestamp
entry — for every entry, present image or not — propagating the first
exception raised. -/
def create_image_clips (fs : String → Option (ℕ × ℕ)) (video_size : ℕ × ℕ) :
    List TimelineEntry → Except String (List ImageClip)
  | [] => Except.ok []
  | ts :: rest =>
    match make_image_clip fs video_size ts with
    | Except.error e => Except.error e
    | Except.ok c =>
      match create_image_clips fs video_size rest with
      | Except.error e => Except.error e
      | Except.ok cs => Except.ok (c :: cs)

/-- A caption overlay from `VideoManager.create_subtitle_clips`
(video_manager.py lines 120-154). -/
structure SubtitleClip where
  text : String
  start : ℚ
  endTime : ℚ
  deriving Repr, DecidableEq

def create_subtitle_clips (timestamps : List TimelineEntry) :
    List SubtitleClip :=
  timestamps.map fun ts =>
    { text := ts.text, start := ts.start, endTime := ts.endTime }

/-- The duration `process_video` assigns to the black background
(video_manager.py line 213): `sum(ts["end"] - ts["start"] for ts in
self.timestamps)`. -/
def background_duration (timestamps : List TimelineEntry) : ℚ :=
  (timestamps.map fun ts => ts.endTime - ts.start).sum

/-- The path the combined track is exported to at the end of
`create_audio_with_timestamps` (video_manager.py line 314) and read back
by `process_video` (line 220): a fixed constant. -/
def final_audio_export_path : String := "temp/audio/final_audio.wav"

/-- The audio-track file path used by a pipeline run whose timestamp
string is `t`: every run reads and writes the same fixed path. -/
def audio_track_path (_t : String) : String := final_audio_export_path

/-- The output filename `process_video` generates when none is supplied
(video_manager.py lines 232-234), from the run's
`datetime.now().strftime("%Y%m%d_%H%M%S")` string. -/
def default_output_filename (t : String) : String :=
  "output/video_" ++ t ++ ".mp4"

/-- `VideoManager.process_video` (video_manager.py lines 198-266).
`fs` maps image paths to pixel dimensions, `audio_readable` says whether
`temp/audio/final_audio.wav` exists and decodes, `now` is the run's
timestamp string.  Reading a never-assigned attribute raises
`AttributeError`; the `except` block re-raises every exception.  On
success, returns the background duration, the subtitle clips, the image
clips and the output filename. -/
def process_video (fs : String → Option (ℕ × ℕ)) (audio_readable : Bool)
    (now : String) (output_filename : Option String) (st : VMState) :
    Except String (ℚ × List SubtitleClip × List ImageClip × String) :=
  match st.timestamps with
  | none =>
    Except.error "AttributeError: VideoManager has no attribute timestamps"
  | some timestamps =>
    let bg := background_duration timestamps
    let subtitle_clips := create_subtitle_clips timestamps
    match create_image_clips fs (1080, 1920) timestamps with
    | Except.error e => Except.error e
    | Except.ok image_clips =>
      if audio_readable = false then
        Except.error "AudioFileClip: temp/audio/final_audio.wav not found"
      else
        let out :=
          match output_filename with
          | none => default_output_filename now
          | some f => f
        match st.dialogue_lines with
        | none =>
          Except.error
            "AttributeError: VideoManager has no attribute dialogue_lines"
        | some _ => Except.ok (bg, subtitle_clips, image_clips, out)

theorem chained_of_indexed :
    ∀ (ts : List TimelineEntry) (t : ℚ),
      (∀ h : 0 < ts.length, (ts.get ⟨0, h⟩).start = t) →
      (∀ (i : ℕ) (h : i + 1 < ts.length),
        (ts.get ⟨i, Nat.lt_of_succ_lt h⟩).endTime = (ts.get ⟨i + 1, h⟩).start) →
      Chained t ts := by
  intro ts
  induction ts with
  | nil => intro t _ _; trivial
  | cons e rest ih =>
    intro t h0 hcons
    refine ⟨h0 (Nat.succ_pos _), ?_⟩
    refine ih e.endTime ?_ ?_
    · intro h
      cases rest with
      | nil => simp at h
      | cons e2 r2 =>
        have h1 : (1 : ℕ) + 1 ≤ (e :: e2 :: r2).length := by
          simp [List.length]
        exact (hcons 0 h1).symm
    · intro i h
      exact hcons (i + 1) (Nat.succ_lt_succ h)

theorem chained_sum_eq :
    ∀ (ts : List TimelineEntry) (t : ℚ) (hne : ts ≠ []),
      Chained t ts →
      background_duration ts = (ts.getLast hne).endTime - t := by
  intro ts
  induction ts with
  | nil => intro t hne; exact absurd rfl hne
  | cons e rest ih =>
    intro t hne hc
    cases rest with
    | nil =>
      simp [background_duration, List.getLast, hc.1]
    | cons e2 r2 =>
      have h2 := ih e.endTime (by simp) hc.2
      have hlast : (e :: e2 :: r2).getLast hne = (e2 :: r2).getLast (by simp) :=
        List.getLast_cons (by simp)
      simp only [background_duration, List.map_cons, List.sum_cons] at h2 ⊢
      rw [hlast, hc.1]
      linarith [h2]

/-- C6: for any timeline satisfying the contiguity invariant (first start
0, each entry's end equal to the next entry's start), the duration
`process_video` assigns to the background — the sum over all entries of
`end - start` — equals the last entry's end. -/
theorem background_spans_total_duration (timestamps : List TimelineEntry)
    (hne : timestamps ≠ [])
    (h0 : ∀ h : 0 < timestamps.length, (timestamps.get ⟨0, h⟩).start = 0)
    (hcons : ∀ (i : ℕ) (h : i + 1 < timestamps.length),
      (timestamps.get ⟨i, Nat.lt_of_succ_lt h⟩).endTime =
        (timestamps.get ⟨i + 1, h⟩).start) :
    background_duration timestamps = (timestamps.getLast hne).endTime := by
  have h := chained_sum_eq timestamps 0 hne
    (chained_of_indexed timestamps 0 h0 hcons)
  simpa using h

theorem background_spans_total_duration_witness :
    background_duration
      [{ text := "a", image := "", start := 0, endTime := 2 },
       { text := "b", image := "", start := 2, endTime := 7/2 },
       { text := "c", image := "", start := 7/2, endTime := 13/2 }] =
      (13 : ℚ) / 2 := by
  have h := background_spans_total_duration
    [{ text := "a", image := "", start := 0, endTime := 2 },
     { text := "b", image := "", start := 2, endTime := 7/2 },
     { text := "c", image := "", start := 7/2, endTime := 13/2 }]
    (by simp)
    (by intro h; rfl)
    (by
      intro i h
      have hi : i < 2 := by simp at h; omega
      interval_cases i <;> rfl)
  simpa [List.getLast] using h

theorem div_mul_bounds (a b : ℕ) (hb : 0 < b) :
    a / b * b ≤ a ∧ a < (a / b + 1) * b := by
  refine ⟨Nat.div_mul_le_self a b, ?_⟩
  have key := Nat.div_add_mod a b
  have hm := Nat.mod_lt a hb
  calc a = b * (a / b) + a % b := key.symm
    _ < b * (a / b) + b := Nat.add_lt_add_left hm _
    _ = (a / b + 1) * b := by ring

theorem center_bounds (total tw : ℕ) (h : tw ≤ total) :
    2 * ((total - tw) / 2) + tw ≤ total ∧
    total ≤ 2 * ((total - tw) / 2) + tw + 1 := by
  omega

/-- Core arithmetic of the `create_image_clips` loop body: for a present
image of positive dimensions, the clip built for the entry fits in the
1080x1920 frame, preserves the aspect ratio up to one unit of integer
rounding, is centered up to one pixel, and inherits the entry's window. -/
theorem make_image_clip_props (fs : String → Option (ℕ × ℕ))
    (e : TimelineEntry) (w h : ℕ) (hw : 0 < w) (hh : 0 < h)
    (himg : fs e.image = some (w, h)) :
    ∃ c : ImageClip, make_image_clip fs (1080, 1920) e = Except.ok c ∧
      c.target_width ≤ 1080 ∧ c.target_height ≤ 1920 ∧
      ((c.target_height * w ≤ c.target_width * h ∧
        c.target_width * h < (c.target_height + 1) * w) ∨
       (c.target_width * h ≤ c.target_height * w ∧
        c.target_height * w < (c.target_width + 1) * h)) ∧
      2 * c.x_pos + c.target_width ≤ 1080 ∧
      1080 ≤ 2 * c.x_pos + c.target_width + 1 ∧
      2 * c.y_pos + c.target_height ≤ 1920 ∧
      1920 ≤ 2 * c.y_pos + c.target_height + 1 ∧
      c.start = e.start ∧ c.endTime = e.endTime := by
  by_cases hcase : h * 1080 / w > 1920
  · -- the width-fitted height overflows the frame: refit to height 1920
    have hA : 1921 * w ≤ h * 1080 := (Nat.le_div_iff_mul_le hw).mp hcase
    have htw : w * 1920 / h ≤ 1080 := by
      have hlt : w * 1920 / h < 1081 :=
        (Nat.div_lt_iff_lt_mul hh).mpr (by omega)
      omega
    have hb := div_mul_bounds (w * 1920) h hh
    refine ⟨{ target_width := w * 1920 / h, target_height := 1920,
              x_pos := (1080 - w * 1920 / h) / 2,
              y_pos := (1920 - 1920) / 2,
              start := e.start, endTime := e.endTime },
            ?_, htw, le_refl _, ?_, ?_, ?_, ?_, ?_, rfl, rfl⟩
    · simp [make_image_clip, himg, hcase]
    · refine Or.inr ⟨?_, ?_⟩
      · rw [mul_comm 1920 w]; exact hb.1
      · rw [mul_comm 1920 w]; exact hb.2
    · exact (center_bounds 1080 _ htw).1
    · exact (center_bounds 1080 _ htw).2
    · exact (center_bounds 1920 1920 (le_refl _)).1
    · exact (center_bounds 1920 1920 (le_refl _)).2
  · -- width-fitted height fits: width pinned to 1080
    push_neg at hcase
    have hb := div_mul_bounds (h * 1080) w hw
    refine ⟨{ target_width := 1080, target_height := h * 1080 / w,
              x_pos := (1080 - 1080) / 2,
              y_pos := (1920 - h * 1080 / w) / 2,
              start := e.start, endTime := e.endTime },
            ?_, le_refl _, hcase, ?_, ?_, ?_, ?_, ?_, rfl, rfl⟩
    · simp [make_image_clip, himg, Nat.not_lt.mpr hcase]
    · refine Or.inl ⟨?_, ?_⟩
      · rw [mul_comm 1080 h]; exact hb.1
      · rw [mul_comm 1080 h]; exact hb.2
    · exact (center_bounds 1080 1080 (le_refl _)).1
    · exact (center_bounds 1080 1080 (le_refl _)).2
    · exact (center_bounds 1920 _ hcase).1
    · exact (center_bounds 1920 _ hcase).2

theorem create_image_clips_pointwise (fs : String → Option (ℕ × ℕ))
    (vs : ℕ × ℕ) :
    ∀ (ts : List TimelineEntry) (clips : List ImageClip),
      create_image_clips fs vs ts = Except.ok clips →
      ∀ (i : ℕ) (hi : i < ts.length),
        ∃ c : ImageClip, clips.get? i = some c ∧
          make_image_clip fs vs (ts.get ⟨i, hi⟩) = Except.ok c := by
  intro ts
  induction ts with
  | nil => intro clips _ i hi; simp at hi
  | cons t rest ih =>
    intro clips hok i hi
    simp only [create_image_clips] at hok
    cases hmc : make_image_clip fs vs t with
    | error e => rw [hmc] at hok; cases hok
    | ok c =>
      rw [hmc] at hok
      cases hrest : create_image_clips fs vs rest with
      | error e => rw [hrest] at hok; cases hok
      | ok cs =>
        rw [hrest] at hok
        cases hok
        cases i with
        | zero => exact ⟨c, rfl, hmc⟩
        | succ j => exact ih cs hrest j (Nat.lt_of_succ_lt_succ hi)

/-- C7: every overlay `create_image_clips` builds for an entry whose image
is a present file of positive pixel dimensions fits inside the 1080x1920
frame, preserves the source aspect ratio up to integer rounding, is
centered in the frame up to one pixel of rounding, and is visible exactly
during the entry's `[start, end)` window. -/
theorem image_overlay_fits_centered_timed (fs : String → Option (ℕ × ℕ))
    (ts : List TimelineEntry) (clips : List ImageClip)
    (hok : create_image_clips fs (1080, 1920) ts = Except.ok clips)
    (i : ℕ) (hi : i < ts.length) (w h : ℕ) (hw : 0 < w) (hh : 0 < h)
    (himg : fs ((ts.get ⟨i, hi⟩).image) = some (w, h)) :
    ∃ c : ImageClip, clips.get? i = some c ∧
      c.target_width ≤ 1080 ∧ c.target_height ≤ 1920 ∧
      ((c.target_height * w ≤ c.target_width * h ∧
        c.target_width * h < (c.target_height + 1) * w) ∨
       (c.target_width * h ≤ c.target_height * w ∧
        c.target_height * w < (c.target_width + 1) * h)) ∧
      2 * c.x_pos + c.target_width ≤ 1080 ∧
      1080 ≤ 2 * c.x_pos + c.target_width + 1 ∧
      2 * c.y_pos + c.target_height ≤ 1920 ∧
      1920 ≤ 2 * c.y_pos + c.target_height + 1 ∧
      c.start = (ts.get ⟨i, hi⟩).start ∧
      c.endTime = (ts.get ⟨i, hi⟩).endTime := by
  obtain ⟨c, hget, hmc⟩ := create_image_clips_pointwise fs (1080, 1920)
    ts clips hok i hi
  obtain ⟨c', hmc', hprops⟩ := make_image_clip_props fs (ts.get ⟨i, hi⟩)
    w h hw hh himg
  rw [hmc] at hmc'
  cases hmc'
  exact ⟨c, hget, hprops⟩

theorem image_overlay_fits_centered_timed_witness :
    ∃ c : ImageClip,
      ([{ target_width := 1080, target_height := 1080, x_pos := 0,
          y_pos := 420, start := 0, endTime := 2 }] : List ImageClip).get? 0 =
        some c ∧
      c.target_width ≤ 1080 ∧ c.target_height ≤ 1920 ∧
      ((c.target_height * 1024 ≤ c.target_width * 1024 ∧
        c.target_width * 1024 < (c.target_height + 1) * 1024) ∨
       (c.target_width * 1024 ≤ c.target_height * 1024 ∧
        c.target_height * 1024 < (c.target_width + 1) * 1024)) ∧
      2 * c.x_pos + c.target_width ≤ 1080 ∧
      1080 ≤ 2 * c.x_pos + c.target_width + 1 ∧
      2 * c.y_pos + c.target_height ≤ 1920 ∧
      1920 ≤ 2 * c.y_pos + c.target_height + 1 ∧
      c.start = 0 ∧ c.endTime = 2 := by
  exact image_overlay_fits_centered_timed
    (fun p => if p = "images/a.png" then some (1024, 1024) else none)
    [{ text := "hi", image := "images/a.png", start := 0, endTime := 2 }]
    [{ target_width := 1080, target_height := 1080, x_pos := 0,
       y_pos := 420, start := 0, endTime := 2 }]
    (by rfl) 0 (by norm_num) 1024 1024 (by norm_num) (by norm_num) (by rfl)

/-- The retry loop inside `ImageManager.generate_image` (image_manager.py
lines 86-135), same shape as the voice retry loop: `oracle attempt` is
what the attempt's body (DALL-E request, download, save, metadata write)
produces. -/
def generate_image_go (oracle : ℕ → Except String String) (max_retries : ℕ) :
    ℕ → Except String String
  | 0 => Except.error "Не удалось сгенерировать изображение"
  | remaining + 1 =>
    match oracle (max_retries - (remaining + 1)) with
    | Except.ok filename => Except.ok filename
    | Except.error e =>
      if remaining = 0 then
        Except.error ("Не удалось сгенерировать изображение после " ++
          toString max_retries ++ " попыток: " ++ e)
      else generate_image_go oracle max_retries remaining

/-- `ImageManager.generate_image` (image_manager.py lines 70-138).  The
outer `except` (lines 137-138) catches the terminal retry failure and
*returns* an error-message string: the function's value is then neither a
file path nor an absence marker. -/
def generate_image (oracle : ℕ → Except String String) : String :=
  match generate_image_go oracle 3 3 with
  | Except.ok filename => filename
  | Except.error e => "Ошибка генерации изображения: " ++ e

/-- C3 is the intent but the code breaks it: with line 0's illustration
present on disk and line 1's illustration having failed all retries, the
build succeeds, yet line 1's entry carries the returned error-message
string in its `image` field (not an absence), and `process_video` then
raises from `mp.ImageClip` on that non-path — the render fails instead of
logging and continuing. -/
theorem failed_illustration_breaks_render :
    (create_audio_with_timestamps VideoManager_init
      [("hi", Except.ok 1), ("yo", Except.ok 2)]
      (fun i => if i = 0 then "images/dialogue_line_0_20240101_000000.png"
                else generate_image (fun _ => Except.error "connection"))).2 =
      Except.ok () ∧
    (create_audio_with_timestamps VideoManager_init
      [("hi", Except.ok 1), ("yo", Except.ok 2)]
      (fun i => if i = 0 then "images/dialogue_line_0_20240101_000000.png"
                else generate_image (fun _ => Except.error "connection"))).1.timestamps =
      some
        [{ text := "hi", image := "images/dialogue_line_0_20240101_000000.png",
           start := 0, endTime := 1 },
         { text := "yo",
           image := "Ошибка генерации изображения: Не удалось сгенерировать изображение после 3 попыток: connection",
           start := 1, endTime := 3 }] ∧
    process_video
      (fun p => if p = "images/dialogue_line_0_20240101_000000.png"
                then some (1024, 1024) else none)
      true "20240101_000000" none
      (create_audio_with_timestamps VideoManager_init
        [("hi", Except.ok 1), ("yo", Except.ok 2)]
        (fun i => if i = 0 then "images/dialogue_line_0_20240101_000000.png"
                  else generate_image (fun _ => Except.error "connection"))).1 =
      Except.error
        "ImageClip: no such image file: Ошибка генерации изображения: Не удалось сгенерировать изображение после 3 попыток: connection" := by
  refine ⟨rfl, ?_, ?_⟩
  · norm_num [create_audio_with_timestamps, create_audio_loop,
      VideoManager_init, generate_image, generate_image_go]
    rfl
  · rfl

/-- C10: `process_video` on a freshly constructed `VideoManager` raises
(reading the `timestamps` attribute that only `create_audio_with_timestamps`
creates), and after any `create_audio_with_timestamps` call both attributes
it reads are present. -/
theorem process_video_requires_prior_build :
    (∀ (fs : String → Option (ℕ × ℕ)) (audio : Bool) (now : String)
        (out : Option String),
      process_video fs audio now out VideoManager_init =
        Except.error "AttributeError: VideoManager has no attribute timestamps") ∧
    (∀ (st : VMState) (lines : List (String × Except String ℚ))
        (images : ℕ → String),
      ((create_audio_with_timestamps st lines images).1).timestamps.isSome =
        true ∧
      ((create_audio_with_timestamps st lines images).1).dialogue_lines.isSome =
        true) :=
  ⟨fun _ _ _ _ => rfl, fun _ _ _ => ⟨rfl, rfl⟩⟩

theorem string_data_append (a b : String) :
    (a ++ b).data = a.data ++ b.data := by
  cases a; cases b; rfl

/-- C8 as stated is false: two distinct runs do share a mutable resource.
Whatever their timestamp strings, both export the combined audio track to,
and read it back from, the same fixed path `temp/audio/final_audio.wav`. -/
theorem shared_audio_track_counterexample :
    audio_track_path "20240101_000000" = audio_track_path "20240102_121212" ∧
    "20240101_000000" ≠ "20240102_121212" :=
  ⟨rfl, by decide⟩

/-- C8 amended: each run's timeline lives on the manager instance and the
default output video path is timestamp-derived — distinct timestamp
strings give distinct output files — but the combined audio track is
written to and read from one fixed path shared by every run, so concurrent
runs can collide on it. -/
theorem run_resource_paths (t1 t2 : String) (hne : t1 ≠ t2) :
    default_output_filename t1 ≠ default_output_filename t2 ∧
    audio_track_path t1 = audio_track_path t2 := by
  refine ⟨?_, rfl⟩
  intro h
  apply hne
  have hd := congrArg String.data h
  simp only [default_output_filename, string_data_append,
    List.append_assoc] at hd
  have h2 := List.append_cancel_left hd
  have h3 := List.append_cancel_right h2
  cases t1; cases t2
  exact congrArg String.mk h3

theorem run_resource_paths_witness :
    default_output_filename "20240101_000000" ≠
      default_output_filename "20240102_121212" ∧
    audio_track_path "20240101_000000" = audio_track_path "20240102_121212" :=
  run_resource_paths "20240101_000000" "20240102_121212" (by decide)

/-- Python's `dialogue.split("\n")` on the underlying character list. -/
def split_newlines : List Char → List (List Char)
  | [] => [[]]
  | c :: rest =>
    if c = '\n' then [] :: split_newlines rest
    else
      match split_newlines rest with
      | [] => [[c]]
      | l :: ls => (c :: l) :: ls

/-- Python truthiness of `line.strip()`: some character is not
whitespace. -/
def is_nonblank (l : List Char) : Bool :=
  l.any fun c => !c.isWhitespace

/-- `[line for line in dialogue.split("\n") if line.strip()]`
(dialogue_generator.py line 96). -/
def nonblank_lines (s : List Char) : List (List Char) :=
  (split_newlines s).filter is_nonblank

/-- Python `str.strip()`. -/
def py_strip (s : List Char) : List Char :=
  ((s.dropWhile Char.isWhitespace).reverse.dropWhile Char.isWhitespace).reverse

/-- `DialogueGenerator.generate_dialogue` (dialogue_generator.py lines
63-122).  `responses` is the stream of chat-completion outcomes the `try`
body sees, one per (recursive) call: `Except.ok content` is the message
content, `Except.error e` a raised exception, which the handler turns into
a *returned* error-message string, modelled as `Except.error`.  The
recursive retry at line 99 consumes the next response; an exhausted stream
stands for a recursion that never returns a success. -/
def generate_dialogue (num_lines : ℕ) :
    List (Except String (List Char)) → Except String (List Char)
  | [] => Except.error "Ошибка генерации диалога: превышена глубина рекурсии"
  | Except.error e :: _ =>
    Except.error ("Ошибка генерации диалога: " ++ e)
  | Except.ok content :: rest =>
    let dialogue := py_strip content
    if (nonblank_lines dialogue).length ≠ num_lines then
      generate_dialogue num_lines rest
    else
      Except.ok dialogue

/-- C9: whenever `generate_dialogue` returns through its success path, the
returned dialogue, split on newlines with blank lines discarded, has
exactly `num_lines` lines. -/
theorem generate_dialogue_line_count (num_lines : ℕ) :
    ∀ (responses : List (Except String (List Char))) (d : List Char),
      generate_dialogue num_lines responses = Except.ok d →
      (nonblank_lines d).length = num_lines := by
  intro responses
  induction responses with
  | nil => intro d hd; cases hd
  | cons r rest ih =>
    intro d hd
    cases r with
    | error e => cases hd
    | ok content =>
      simp only [generate_dialogue] at hd
      by_cases hc : (nonblank_lines (py_strip content)).length = num_lines
      · rw [if_neg (by simpa using hc)] at hd
        cases hd
        exact hc
      · rw [if_pos hc] at hd
        exact ih d hd

theorem generate_dialogue_line_count_witness :
    (nonblank_lines (py_strip "A: hi\nB: yo".data)).length = 2 :=
  generate_dialogue_line_count 2 [Except.ok "A: hi\nB: yo".data]
    (py_strip "A: hi\nB: yo".data) (by rfl)

end HAOreelsGEN
